import Mathlib

/-!
Shallow embedding of the BM25 full-text-search core (src/main.rs).

Modelling conventions:
* A document is a list of string tokens; the corpus is a list of documents.
* Rust HashMaps are modelled by their lookup denotation: a term-frequency
  table is a function from token to count, the idf table is a function from
  token to an optional score (None models an absent key, matching the
  code's get/unwrap_or access pattern).  HashSet draining in calculate_idf
  visits each distinct term of a document exactly once, in an order that
  cannot influence the resulting map, so it is modelled by folding over
  List.dedup of the document.
* i32 quantities that the program keeps non-negative (counts, lengths) are
  modelled as Nat; i32 division is Nat division (truncation).
* f32 arithmetic is modelled at two levels.  The first level is exact
  rational arithmetic (rounding idealised away); it is used for claims
  about the scoring formula itself and for code paths on which no f32
  special value can arise.  The second level, type F32, adds the IEEE
  special values nan, +inf and -inf with the IEEE rules for the add, mul
  and div operations the scoring code performs; it is used for the
  scoring and ranking claims, because avg_doc_length is an i32 that
  truncates to 0 whenever the corpus holds fewer tokens than documents
  (e.g. it contains empty documents), and then doc_length/avg_doc_length
  is inf or 0.0/0.0 = NaN in the program.  The f32 natural logarithm has
  no computable exact counterpart, so it is passed in as an uninterpreted
  parameter lg : Q -> Q (its values are always finite).
* A Rust panic is modelled by an explicit error value of type RustPanic:
  the integer division by zero in BM25::new, and the
  partial_cmp(..).unwrap() in rank_documents' sort comparator, which
  panics as soon as a NaN score is compared (Rust's stable sort examines
  every element against a neighbour once the list has at least two
  elements, so any NaN score reaches the comparator).
* Rust's sort_by is a stable merge sort; it is modelled by List.mergeSort
  with the comparator of the code (descending by score).
-/

/-- A token, as produced by the (excluded) tokenizer. -/
abbrev Token := String

/-- A document: an ordered sequence of tokens. -/
abbrev Doc := List Token

/-- A corpus: an ordered sequence of documents. -/
abbrev Corpus := List Doc

/-- One step of Counter: insert with count 1 if absent, else add 1
(src/main.rs lines 32-35, with the HashMap read through its lookup
function). -/
def counterIncrement (m : Token → Nat) (item : Token) : Token → Nat :=
  fun t => if t = item then m t + 1 else m t

/-- The Counter built by one pass over a list of items
(src/main.rs lines 109-113: a fresh Counter, incremented once per word). -/
def counterOfList (items : List Token) : Token → Nat :=
  items.foldl counterIncrement (fun _ => 0)

/-- The document-frequency map built by calculate_idf
(src/main.rs lines 44-51): for every document, every distinct term of the
document has its entry incremented exactly once. -/
def docFreqMap (corpus : Corpus) : Token → Nat :=
  corpus.foldl (fun m doc => doc.dedup.foldl counterIncrement m) (fun _ => 0)

/-- The idf value stored for a term with document frequency df
(src/main.rs line 54): lg ((doc_count - df + 0.5) / (df + 0.5)). -/
def idfFormula (lg : ℚ → ℚ) (docCount df : Nat) : ℚ :=
  lg (((docCount : ℚ) - (df : ℚ) + 1/2) / ((df : ℚ) + 1/2))

/-- The term_idf map after calculate_idf (src/main.rs lines 53-56): an
entry exists exactly for the terms with a doc_freq entry, i.e. the terms
occurring in at least one document. -/
def termIdf (lg : ℚ → ℚ) (corpus : Corpus) : Token → Option ℚ :=
  fun t =>
    if docFreqMap corpus t = 0 then none
    else some (idfFormula lg corpus.length (docFreqMap corpus t))

/-- The BM25 index state (src/main.rs lines 10-19). -/
structure BM25 where
  corpus : Corpus
  k1 : ℚ
  b : ℚ
  doc_lengths : List Nat
  avg_doc_length : Nat
  doc_count : Nat
  tf_cache : List (Token → Nat)
  term_idf : Token → Option ℚ

/-- A Rust runtime panic reachable from the embedded code: the i32
divide-by-zero in BM25::new, and the unwrap of partial_cmp on a NaN score
in rank_documents' sort comparator. -/
inductive RustPanic where
  | divideByZero
  | nanComparison
deriving DecidableEq, Repr

/-- The index built for a corpus whose construction does not panic
(the record expression of src/main.rs lines 99-118, with k1 = 1.5 and
b = 0.75 from lines 101-102 and avg_doc_length = total / count from
line 98). -/
def BM25.build (lg : ℚ → ℚ) (corpus : Corpus) : BM25 :=
  { corpus := corpus
    k1 := 3/2
    b := 3/4
    doc_lengths := corpus.map List.length
    avg_doc_length := (corpus.map List.length).sum / corpus.length
    doc_count := corpus.length
    tf_cache := corpus.map counterOfList
    term_idf := termIdf lg corpus }

/-- BM25::new (src/main.rs lines 87-120).  On an empty corpus the i32
division total_doc_length / doc_count divides by zero, which panics in
Rust; otherwise the fully built index is returned. -/
def BM25.new (lg : ℚ → ℚ) (corpus : Corpus) : Except RustPanic BM25 :=
  if corpus.length = 0 then .error .divideByZero
  else .ok (BM25.build lg corpus)

/-- The per-term score added inside the loop of calculate_bm25_score
(src/main.rs lines 63-72): idf * (tf * (k1+1)) / (tf + k1 * (1 - b +
b * (doc_length / avg_doc_length))). -/
def bm25TermContribution (k1 b idf : ℚ) (tf docLen avgLen : Nat) : ℚ :=
  let numerator := (tf : ℚ) * (k1 + 1)
  let denominator := (tf : ℚ) + k1 * (1 - b + b * ((docLen : ℚ) / (avgLen : ℚ)))
  idf * (numerator / denominator)

/-- One iteration of the query loop of calculate_bm25_score
(src/main.rs lines 61-74): if tf_cache has an entry for doc_index, add
the term's contribution, else leave the accumulator unchanged. -/
def BM25.scoreStep (idx : BM25) (doc_index : Nat) (score : ℚ) (term : Token) : ℚ :=
  match idx.tf_cache[doc_index]? with
  | none => score
  | some hash =>
      score + bm25TermContribution idx.k1 idx.b ((idx.term_idf term).getD 0)
        (hash term) (idx.doc_lengths.getD doc_index 0) idx.avg_doc_length

/-- calculate_bm25_score (src/main.rs lines 59-76). -/
def BM25.calculate_bm25_score (idx : BM25) (query : List Token) (doc_index : Nat) : ℚ :=
  query.foldl (idx.scoreStep doc_index) 0

/-- The descending-score comparator of rank_documents
(src/main.rs line 83). -/
def scoreDescending (a b : Nat × ℚ) : Bool :=
  decide (b.2 ≤ a.2)

/-- rank_documents (src/main.rs lines 78-85): score every document index
in 0..doc_count, then stable-sort descending by score.  This is the
rational-level model; the sort comparator is total here, which is faithful
exactly when no score is NaN (see rank_documentsF for the NaN-aware
model). -/
def BM25.rank_documents (idx : BM25) (query : List Token) : List (Nat × ℚ) :=
  (((List.range idx.doc_count).map
      (fun i => (i, idx.calculate_bm25_score query i))).mergeSort scoreDescending)

/-- An f32 value with the IEEE special values, rounding idealised away:
NaN, the two infinities, or a finite value represented exactly. -/
inductive F32 where
  | nan
  | inf
  | neginf
  | finite (val : ℚ)
deriving DecidableEq, Repr

/-- Whether an f32 value is NaN. -/
def F32.isNan : F32 → Bool
  | .nan => true
  | _ => false

/-- IEEE f32 addition on exact values: NaN propagates, inf + (-inf) is
NaN, an infinity absorbs finite addends, finite values add exactly. -/
def F32.add : F32 → F32 → F32
  | .nan, _ => .nan
  | _, .nan => .nan
  | .inf, .neginf => .nan
  | .neginf, .inf => .nan
  | .inf, _ => .inf
  | _, .inf => .inf
  | .neginf, _ => .neginf
  | _, .neginf => .neginf
  | .finite a, .finite b => .finite (a + b)

/-- IEEE f32 multiplication on exact values: NaN propagates, 0 * inf is
NaN, an infinity times a nonzero finite value is a signed infinity,
finite values multiply exactly. -/
def F32.mul : F32 → F32 → F32
  | .nan, _ => .nan
  | _, .nan => .nan
  | .inf, .inf => .inf
  | .inf, .neginf => .neginf
  | .neginf, .inf => .neginf
  | .neginf, .neginf => .inf
  | .inf, .finite b => if b = 0 then .nan else if 0 < b then .inf else .neginf
  | .finite a, .inf => if a = 0 then .nan else if 0 < a then .inf else .neginf
  | .neginf, .finite b => if b = 0 then .nan else if 0 < b then .neginf else .inf
  | .finite a, .neginf => if a = 0 then .nan else if 0 < a then .neginf else .inf
  | .finite a, .finite b => .finite (a * b)

/-- IEEE f32 division on exact values: NaN propagates, inf/inf is NaN,
0.0/0.0 is NaN, a nonzero finite value divided by 0.0 is a signed
infinity, a finite value divided by an infinity is 0, finite values with
a nonzero divisor divide exactly.  (Signed zeros are not modelled; the
scoring code never produces a negative zero.) -/
def F32.div : F32 → F32 → F32
  | .nan, _ => .nan
  | _, .nan => .nan
  | .inf, .inf => .nan
  | .inf, .neginf => .nan
  | .neginf, .inf => .nan
  | .neginf, .neginf => .nan
  | .inf, .finite b => if 0 ≤ b then .inf else .neginf
  | .neginf, .finite b => if 0 ≤ b then .neginf else .inf
  | .finite _, .inf => .finite 0
  | .finite _, .neginf => .finite 0
  | .finite a, .finite b =>
      if b = 0 then (if a = 0 then .nan else if 0 < a then .inf else .neginf)
      else .finite (a / b)

/-- The per-term score of src/main.rs lines 63-72 computed with the f32
operation order of the code: idf * ((tf * (k1 + 1)) / (tf + k1 * ((1 - b)
+ b * (doc_length / avg_doc_length)))).  The casts of tf, doc_length and
avg_doc_length and the constant combinations of k1 and b are finite. -/
def bm25TermContributionF (k1 b idf : ℚ) (tf docLen avgLen : Nat) : F32 :=
  let numerator := F32.mul (.finite (tf : ℚ)) (.finite (k1 + 1))
  let denominator :=
    F32.add (.finite (tf : ℚ))
      (F32.mul (.finite k1)
        (F32.add (.finite (1 - b))
          (F32.mul (.finite b) (F32.div (.finite (docLen : ℚ)) (.finite (avgLen : ℚ))))))
  F32.mul (.finite idf) (F32.div numerator denominator)

/-- One iteration of the query loop of calculate_bm25_score
(src/main.rs lines 61-74) at the f32 level: if tf_cache has an entry for
doc_index, add the term's contribution with f32 addition, else leave the
accumulator unchanged. -/
def BM25.scoreStepF (idx : BM25) (doc_index : Nat) (score : F32) (term : Token) : F32 :=
  match idx.tf_cache[doc_index]? with
  | none => score
  | some hash =>
      F32.add score (bm25TermContributionF idx.k1 idx.b ((idx.term_idf term).getD 0)
        (hash term) (idx.doc_lengths.getD doc_index 0) idx.avg_doc_length)

/-- calculate_bm25_score (src/main.rs lines 59-76) at the f32 level,
accumulating from 0.0. -/
def BM25.scoreF (idx : BM25) (query : List Token) (doc_index : Nat) : F32 :=
  query.foldl (idx.scoreStepF doc_index) (.finite 0)

/-- A total Boolean order on f32 values that agrees with the IEEE <=
wherever neither argument is NaN: -inf, then the finite values by their
exact order, then +inf.  NaN is placed above +inf only to make the
relation total and transitive; rank_documentsF never sorts with it when a
NaN is present, because the comparator's unwrap panics first. -/
def F32.fle : F32 → F32 → Bool
  | _, .nan => true
  | .nan, _ => false
  | .neginf, _ => true
  | _, .neginf => false
  | .finite a, .finite b => decide (a ≤ b)
  | .finite _, .inf => true
  | .inf, .finite _ => false
  | .inf, .inf => true

/-- The descending-score comparator of rank_documents (src/main.rs line
83) on f32 scores, on the inputs where its partial_cmp cannot return
None. -/
def scoreDescendingF (a b : Nat × F32) : Bool :=
  F32.fle b.2 a.2

/-- rank_documents (src/main.rs lines 78-85) at the f32 level: score
every document index in 0..doc_count, then stable-sort descending by
score with the comparator b.1.partial_cmp(&a.1).unwrap().  With at least
two entries, Rust's stable sort compares every element against a
neighbour, so if any score is NaN some comparison returns None and the
unwrap panics; with at most one entry the comparator never runs. -/
def rank_documentsF (idx : BM25) (query : List Token) :
    Except RustPanic (List (Nat × F32)) :=
  let ranks := (List.range idx.doc_count).map (fun i => (i, idx.scoreF query i))
  if 2 ≤ ranks.length ∧ ranks.any (fun p => p.2.isNan) then .error .nanComparison
  else .ok (ranks.mergeSort scoreDescendingF)

/-! Helper lemmas about the counter folds. -/

theorem foldl_counterIncrement (l : List Token) :
    ∀ (m : Token → Nat) (t : Token), (l.foldl counterIncrement m) t = m t + l.count t := by
  induction l with
  | nil => intro m t; simp
  | cons x xs ih =>
      intro m t
      simp only [List.foldl_cons, ih, List.count_cons, counterIncrement]
      by_cases h : t = x
      · simp [h]; omega
      · have h2 : ¬x = t := fun hx => h hx.symm
        simp [h, h2]

theorem counterOfList_eq_count (l : List Token) (t : Token) :
    counterOfList l t = l.count t := by
  simpa using foldl_counterIncrement l (fun _ => 0) t

theorem counterOfList_ne_zero_iff (l : List Token) (t : Token) :
    counterOfList l t ≠ 0 ↔ t ∈ l := by
  rw [counterOfList_eq_count]
  simp [Nat.pos_iff_ne_zero.symm, List.count_pos_iff]

theorem docFreqMap_foldl (corpus : Corpus) :
    ∀ (m : Token → Nat) (t : Token),
      (corpus.foldl (fun m doc => doc.dedup.foldl counterIncrement m) m) t =
        m t + corpus.countP (fun d => decide (t ∈ d)) := by
  induction corpus with
  | nil => intro m t; simp
  | cons d ds ih =>
      intro m t
      simp only [List.foldl_cons, ih, foldl_counterIncrement, List.count_dedup,
        List.countP_cons]
      by_cases h : t ∈ d
      · simp [h]; omega
      · simp [h]

theorem docFreqMap_eq_countP (corpus : Corpus) (t : Token) :
    docFreqMap corpus t = corpus.countP (fun d => decide (t ∈ d)) := by
  simpa using docFreqMap_foldl corpus (fun _ => 0) t

theorem docFreqMap_le_length (corpus : Corpus) (t : Token) :
    docFreqMap corpus t ≤ corpus.length := by
  rw [docFreqMap_eq_countP]; exact List.countP_le_length _

theorem docFreqMap_eq_zero_iff (corpus : Corpus) (t : Token) :
    docFreqMap corpus t = 0 ↔ ∀ d ∈ corpus, t ∉ d := by
  rw [docFreqMap_eq_countP, List.countP_eq_zero]
  simp

/-! Helper lemmas about the scoring fold. -/

theorem scoreStep_eq_add (idx : BM25) (i : Nat) (acc : ℚ) (t : Token) :
    idx.scoreStep i acc t = acc + idx.scoreStep i 0 t := by
  cases h : idx.tf_cache[i]? with
  | none => simp [BM25.scoreStep, h]
  | some hash => simp [BM25.scoreStep, h]

theorem foldl_scoreStep_acc (idx : BM25) (i : Nat) (q : List Token) :
    ∀ acc : ℚ, q.foldl (idx.scoreStep i) acc = acc + q.foldl (idx.scoreStep i) 0 := by
  induction q with
  | nil => intro acc; simp
  | cons t ts ih =>
      intro acc
      simp only [List.foldl_cons]
      rw [ih (idx.scoreStep i acc t), ih (idx.scoreStep i 0 t),
        scoreStep_eq_add idx i acc t]
      ring

theorem calculate_bm25_score_cons (idx : BM25) (t : Token) (q : List Token) (i : Nat) :
    idx.calculate_bm25_score (t :: q) i =
      idx.scoreStep i 0 t + idx.calculate_bm25_score q i := by
  simp only [BM25.calculate_bm25_score, List.foldl_cons]
  rw [foldl_scoreStep_acc idx i q (idx.scoreStep i 0 t)]

theorem calculate_bm25_score_append_single (idx : BM25) (q : List Token) (t : Token) (i : Nat) :
    idx.calculate_bm25_score (q ++ [t]) i =
      idx.calculate_bm25_score q i + idx.scoreStep i 0 t := by
  simp only [BM25.calculate_bm25_score, List.foldl_append, List.foldl_cons, List.foldl_nil]
  rw [scoreStep_eq_add idx i (q.foldl (idx.scoreStep i) 0) t]

theorem bm25TermContribution_tf_zero (k1 b idf : ℚ) (docLen avgLen : Nat) :
    bm25TermContribution k1 b idf 0 docLen avgLen = 0 := by
  simp [bm25TermContribution]

theorem build_tf_cache_getElem (lg : ℚ → ℚ) (corpus : Corpus) (i : Nat)
    (hi : i < corpus.length) :
    (BM25.build lg corpus).tf_cache[i]? = some (counterOfList (corpus.getD i [])) := by
  simp [BM25.build, List.getElem?_map, List.getElem?_eq_getElem hi, List.getD_eq_getElem?_getD]

theorem build_tf_cache_getElem_none (lg : ℚ → ℚ) (corpus : Corpus) (i : Nat)
    (hi : corpus.length ≤ i) :
    (BM25.build lg corpus).tf_cache[i]? = none := by
  simp only [BM25.build]
  rw [List.getElem?_eq_none]
  simpa using hi

theorem bm25TermContribution_idf_zero (k1 b : ℚ) (tf docLen avgLen : Nat) :
    bm25TermContribution k1 b 0 tf docLen avgLen = 0 := by
  simp [bm25TermContribution]

theorem scoreDescending_trans (a b c : Nat × ℚ)
    (h1 : scoreDescending a b) (h2 : scoreDescending b c) : scoreDescending a c := by
  simp only [scoreDescending, decide_eq_true_eq] at *
  exact le_trans h2 h1

theorem scoreDescending_total (a b : Nat × ℚ) :
    scoreDescending a b || scoreDescending b a := by
  simp only [scoreDescending, Bool.or_eq_true, decide_eq_true_eq]
  exact le_total b.2 a.2

/-- C1 counterexample: on the empty corpus, BM25::new does not surface an
explicit ConfigurationError value to the caller; the i32 division
total_doc_length / doc_count divides by zero, which is a Rust panic. -/
theorem new_empty_corpus_cex :
    BM25.new (fun x => x) [] = .error RustPanic.divideByZero := rfl

/-- C1 (amended): for the empty corpus, BM25::new fails by panicking with
an integer divide-by-zero while computing the average document length;
construction never returns an index for the empty corpus and never divides
silently, but the failure is a panic, not an explicit error value. -/
theorem new_empty_corpus_panics (lg : ℚ → ℚ) :
    BM25.new lg [] = .error RustPanic.divideByZero := rfl

/-- C3: for every non-empty corpus, doc_lengths stores the token count of
every document, and avg_doc_length is the truncating integer quotient of
the total token count by the document count, so avg * N <= sum(docLengths)
< avg * N + N. -/
theorem avg_doc_length_truncated_mean (lg : ℚ → ℚ) (corpus : Corpus) (h : corpus ≠ []) :
    (BM25.build lg corpus).doc_lengths.sum = (corpus.map List.length).sum ∧
    (BM25.build lg corpus).avg_doc_length * (BM25.build lg corpus).doc_count ≤
      (BM25.build lg corpus).doc_lengths.sum ∧
    (BM25.build lg corpus).doc_lengths.sum <
      (BM25.build lg corpus).avg_doc_length * (BM25.build lg corpus).doc_count +
        (BM25.build lg corpus).doc_count := by
  have hN : 0 < corpus.length := List.length_pos.mpr h
  refine ⟨rfl, ?_, ?_⟩ <;> simp only [BM25.build]
  · exact Nat.div_mul_le_self _ _
  · have hdm := Nat.div_add_mod ((corpus.map List.length).sum) corpus.length
    have hlt := Nat.mod_lt ((corpus.map List.length).sum) hN
    have hmul : corpus.length * ((corpus.map List.length).sum / corpus.length) =
        ((corpus.map List.length).sum / corpus.length) * corpus.length := Nat.mul_comm _ _
    omega

/-- C3 witness at the corpus [[a, b, c], [d]]: 4 tokens over 2 documents
give the truncated average 2. -/
theorem avg_doc_length_truncated_mean_witness :
    ([["a", "b", "c"], ["d"]] : Corpus) ≠ [] ∧
    ((BM25.build (fun x => x) [["a", "b", "c"], ["d"]]).doc_lengths.sum =
        (([["a", "b", "c"], ["d"]] : Corpus).map List.length).sum ∧
      (BM25.build (fun x => x) [["a", "b", "c"], ["d"]]).avg_doc_length *
          (BM25.build (fun x => x) [["a", "b", "c"], ["d"]]).doc_count ≤
        (BM25.build (fun x => x) [["a", "b", "c"], ["d"]]).doc_lengths.sum ∧
      (BM25.build (fun x => x) [["a", "b", "c"], ["d"]]).doc_lengths.sum <
        (BM25.build (fun x => x) [["a", "b", "c"], ["d"]]).avg_doc_length *
            (BM25.build (fun x => x) [["a", "b", "c"], ["d"]]).doc_count +
          (BM25.build (fun x => x) [["a", "b", "c"], ["d"]]).doc_count) :=
  ⟨by decide, avg_doc_length_truncated_mean (fun x => x) [["a", "b", "c"], ["d"]] (by decide)⟩

/-- C8: ranking is deterministic: any two indexes obtained by a successful
BM25::new on the same corpus produce identical (docIndex, score) sequences
for the same query; in particular two rank_documents calls on the same
index agree. -/
theorem rank_documents_deterministic (lg : ℚ → ℚ) (corpus : Corpus)
    (query : List Token) (idx1 idx2 : BM25)
    (h1 : BM25.new lg corpus = .ok idx1) (h2 : BM25.new lg corpus = .ok idx2) :
    idx1.rank_documents query = idx2.rank_documents query := by
  cases Except.ok.inj (h1.symm.trans h2)
  rfl

/-- C8 witness at a concrete one-document corpus and query. -/
theorem rank_documents_deterministic_witness :
    BM25.new (fun x => x) [["a"]] = .ok (BM25.build (fun x => x) [["a"]]) ∧
    (BM25.build (fun x => x) [["a"]]).rank_documents ["a"] =
      (BM25.build (fun x => x) [["a"]]).rank_documents ["a"] :=
  ⟨rfl, rank_documents_deterministic (fun x => x) [["a"]] ["a"] _ _ rfl rfl⟩

/-- C10: calculate_bm25_score on an out-of-range document index returns 0:
the tf_cache lookup is guarded by an if-let, whose None branch leaves the
accumulated score untouched, so no per-term contribution is ever added. -/
theorem score_out_of_range_zero (lg : ℚ → ℚ) (corpus : Corpus)
    (query : List Token) (i : Nat)
    (hi : (BM25.build lg corpus).doc_count ≤ i) :
    (BM25.build lg corpus).calculate_bm25_score query i = 0 := by
  have hnone : (BM25.build lg corpus).tf_cache[i]? = none :=
    build_tf_cache_getElem_none lg corpus i hi
  induction query with
  | nil => rfl
  | cons t ts ih =>
      rw [calculate_bm25_score_cons, ih]
      simp [BM25.scoreStep, hnone]

/-- C10 witness: a two-document corpus scored at document index 5. -/
theorem score_out_of_range_zero_witness :
    (BM25.build (fun x => x) [["a"], ["b"]]).doc_count ≤ 5 ∧
    (BM25.build (fun x => x) [["a"], ["b"]]).calculate_bm25_score ["a"] 5 = 0 :=
  ⟨by decide, score_out_of_range_zero (fun x => x) [["a"], ["b"]] ["a"] 5 (by decide)⟩

/-- C4: for every term occurring in at least one document, the built index
stores exactly lg ((N - df + 0.5) / (df + 0.5)) for that term, where df is
the number of documents containing the term at least once (each document
counted at most once, however often the term repeats in it); the stored
value is the raw logarithm, not clamped, and for terms in more than half
the corpus the argument of the logarithm is below 1, so the natural
logarithm of it is negative. -/
theorem calculate_idf_spec (lg : ℚ → ℚ) (corpus : Corpus) (t : Token)
    (ht : docFreqMap corpus t ≠ 0) :
    (BM25.build lg corpus).term_idf t =
      some (lg (((corpus.length : ℚ) - (docFreqMap corpus t : ℚ) + 1/2) /
        ((docFreqMap corpus t : ℚ) + 1/2))) ∧
    docFreqMap corpus t = corpus.countP (fun d => decide (t ∈ d)) ∧
    (corpus.length < 2 * docFreqMap corpus t →
      ((corpus.length : ℚ) - (docFreqMap corpus t : ℚ) + 1/2) /
        ((docFreqMap corpus t : ℚ) + 1/2) < 1) := by
  refine ⟨?_, docFreqMap_eq_countP corpus t, ?_⟩
  · simp [BM25.build, termIdf, ht, idfFormula]
  · intro hgt
    have hle : docFreqMap corpus t ≤ corpus.length := docFreqMap_le_length corpus t
    rw [div_lt_one (by positivity)]
    have hcast : (corpus.length : ℚ) < 2 * (docFreqMap corpus t : ℚ) := by
      exact_mod_cast hgt
    linarith

/-- C4 witness: term a occurs in 2 of 3 documents, more than half the
corpus, and its document frequency ignores the repetition inside the first
document. -/
theorem calculate_idf_spec_witness :
    docFreqMap [["a", "a"], ["a"], ["b"]] "a" ≠ 0 ∧
    ((BM25.build (fun x => x) [["a", "a"], ["a"], ["b"]]).term_idf "a" =
      some ((fun x : ℚ => x) (((3 : ℚ) - (docFreqMap [["a", "a"], ["a"], ["b"]] "a" : ℚ) + 1/2) /
        ((docFreqMap [["a", "a"], ["a"], ["b"]] "a" : ℚ) + 1/2))) ∧
    docFreqMap [["a", "a"], ["a"], ["b"]] "a" =
      ([["a", "a"], ["a"], ["b"]] : Corpus).countP (fun d => decide ("a" ∈ d)) ∧
    (([["a", "a"], ["a"], ["b"]] : Corpus).length <
        2 * docFreqMap [["a", "a"], ["a"], ["b"]] "a" →
      ((([["a", "a"], ["a"], ["b"]] : Corpus).length : ℚ) -
          (docFreqMap [["a", "a"], ["a"], ["b"]] "a" : ℚ) + 1/2) /
        ((docFreqMap [["a", "a"], ["a"], ["b"]] "a" : ℚ) + 1/2) < 1)) :=
  ⟨by decide, calculate_idf_spec (fun x => x) [["a", "a"], ["a"], ["b"]] "a" (by decide)⟩

/-- C9: construction invariant of the term-frequency cache: there is one
table per document; summing the stored counts over the document's distinct
tokens gives the stored document length, which is the token count of the
document; and a token has a nonzero count exactly when it occurs in the
document. -/
theorem tf_cache_invariant (lg : ℚ → ℚ) (corpus : Corpus) (i : Nat)
    (hi : i < corpus.length) :
    (BM25.build lg corpus).tf_cache.length = corpus.length ∧
    ((corpus.getD i []).dedup.map
        ((BM25.build lg corpus).tf_cache.getD i (fun _ => 0))).sum =
      (BM25.build lg corpus).doc_lengths.getD i 0 ∧
    (BM25.build lg corpus).doc_lengths.getD i 0 = (corpus.getD i []).length ∧
    ∀ t : Token, ((BM25.build lg corpus).tf_cache.getD i (fun _ => 0)) t ≠ 0 ↔
      t ∈ corpus.getD i [] := by
  have hcache : (BM25.build lg corpus).tf_cache.getD i (fun _ => 0) =
      counterOfList (corpus.getD i []) := by
    rw [List.getD_eq_getElem?_getD, build_tf_cache_getElem lg corpus i hi]
    rfl
  have hlen : (BM25.build lg corpus).doc_lengths.getD i 0 = (corpus.getD i []).length := by
    simp [BM25.build, List.getD_eq_getElem?_getD, List.getElem?_map,
      List.getElem?_eq_getElem hi]
  refine ⟨by simp [BM25.build], ?_, hlen, ?_⟩
  · rw [hcache, hlen]
    rw [List.map_congr_left (fun t _ => counterOfList_eq_count (corpus.getD i []) t)]
    exact List.sum_map_count_dedup_eq_length _
  · intro t
    rw [hcache]
    exact counterOfList_ne_zero_iff _ t

/-- C9 witness: a one-document corpus with a repeated token. -/
theorem tf_cache_invariant_witness :
    0 < ([["a", "b", "a"]] : Corpus).length ∧
    ((BM25.build (fun x => x) [["a", "b", "a"]]).tf_cache.length = 1 ∧
      ((([["a", "b", "a"]] : Corpus).getD 0 []).dedup.map
          ((BM25.build (fun x => x) [["a", "b", "a"]]).tf_cache.getD 0 (fun _ => 0))).sum =
        (BM25.build (fun x => x) [["a", "b", "a"]]).doc_lengths.getD 0 0 ∧
      (BM25.build (fun x => x) [["a", "b", "a"]]).doc_lengths.getD 0 0 =
        (([["a", "b", "a"]] : Corpus).getD 0 []).length ∧
      ∀ t : Token,
        ((BM25.build (fun x => x) [["a", "b", "a"]]).tf_cache.getD 0 (fun _ => 0)) t ≠ 0 ↔
        t ∈ ([["a", "b", "a"]] : Corpus).getD 0 []) :=
  ⟨by decide, tf_cache_invariant (fun x => x) [["a", "b", "a"]] 0 (by decide)⟩

/-- C7 counterexample: with the code's k1 = 1.5 and b = 0.75 but a
negative idf (which the unclamped IDF computation can produce), raising tf
from 1 to 2 strictly decreases the contribution; and even with idf = 1 and
k1 = 1.5, a b outside [0, 1] (here b = 2) lets the contribution strictly
decrease from tf = 2 to tf = 3.  So the claim is false when quantified
over arbitrary fixed idf and b. -/
theorem bm25_contribution_monotone_cex :
    bm25TermContribution (3/2) (3/4) (-1) 2 1 1 <
      bm25TermContribution (3/2) (3/4) (-1) 1 1 1 ∧
    bm25TermContribution (3/2) 2 1 3 0 1 <
      bm25TermContribution (3/2) 2 1 2 0 1 := by
  constructor <;> norm_num [bm25TermContribution]

/-- C7 (amended): for fixed nonnegative idf, fixed k1 >= 0, fixed b in
[0, 1] (the code uses b = 0.75), and fixed natural document length and
average document length, the per-term contribution does not decrease when
tf strictly increases. -/
theorem bm25_contribution_monotone (k1 b idf : ℚ) (hk1 : 0 ≤ k1) (hb0 : 0 ≤ b)
    (hb1 : b ≤ 1) (hidf : 0 ≤ idf) (tf1 tf2 docLen avgLen : Nat) (htf : tf1 < tf2) :
    bm25TermContribution k1 b idf tf1 docLen avgLen ≤
      bm25TermContribution k1 b idf tf2 docLen avgLen := by
  have hr : (0:ℚ) ≤ (docLen : ℚ) / (avgLen : ℚ) :=
    div_nonneg (Nat.cast_nonneg _) (Nat.cast_nonneg _)
  have hC : (0:ℚ) ≤ k1 * (1 - b + b * ((docLen : ℚ) / (avgLen : ℚ))) :=
    mul_nonneg hk1 (by nlinarith [mul_nonneg hb0 hr])
  have ht1 : (0:ℚ) ≤ (tf1:ℚ) := Nat.cast_nonneg _
  have ht12 : (tf1:ℚ) < (tf2:ℚ) := by exact_mod_cast htf
  have hk1' : (0:ℚ) < k1 + 1 := by linarith
  simp only [bm25TermContribution]
  apply mul_le_mul_of_nonneg_left _ hidf
  set C := k1 * (1 - b + b * ((docLen : ℚ) / (avgLen : ℚ))) with hCdef
  by_cases hzero : (tf1:ℚ) + C = 0
  · have h1 : (tf1:ℚ) = 0 := by linarith
    have hC0 : C = 0 := by linarith
    rw [h1, hC0]
    simp only [zero_mul, zero_add, add_zero, zero_div]
    exact div_nonneg (mul_nonneg (by linarith) hk1'.le) (by linarith)
  · have hpos1 : (0:ℚ) < (tf1:ℚ) + C := lt_of_le_of_ne (by linarith) (Ne.symm hzero)
    have hpos2 : (0:ℚ) < (tf2:ℚ) + C := by linarith
    rw [div_le_div_iff₀ hpos1 hpos2]
    nlinarith [mul_nonneg (mul_nonneg hk1'.le hC) (by linarith : (0:ℚ) ≤ (tf2:ℚ) - (tf1:ℚ))]

/-- C7 witness of the amended statement at idf = 1, the code's k1 and b,
and tf raised from 1 to 2 with document length equal to the average. -/
theorem bm25_contribution_monotone_witness :
    ((0:ℚ) ≤ 3/2 ∧ (0:ℚ) ≤ 3/4 ∧ (3/4:ℚ) ≤ 1 ∧ (0:ℚ) ≤ 1 ∧ (1:Nat) < 2) ∧
    bm25TermContribution (3/2) (3/4) 1 1 1 1 ≤
      bm25TermContribution (3/2) (3/4) 1 2 1 1 :=
  ⟨⟨by norm_num, by norm_num, by norm_num, by norm_num, by decide⟩,
    bm25_contribution_monotone (3/2) (3/4) 1 (by norm_num) (by norm_num) (by norm_num)
      (by norm_num) 1 2 1 1 (by decide)⟩

/-! Helper lemmas about the f32-level model. -/

theorem F32.add_finite_zero (x : F32) : F32.add x (F32.finite 0) = x := by
  cases x <;> simp [F32.add]

theorem F32.fle_trans (a b c : F32) (h1 : F32.fle a b) (h2 : F32.fle b c) :
    F32.fle a c := by
  cases a <;> cases b <;> cases c <;> simp_all [F32.fle]
  exact le_trans h1 h2

theorem F32.fle_total (a b : F32) : F32.fle a b || F32.fle b a := by
  cases a <;> cases b <;> simp [F32.fle]
  exact le_total _ _

theorem scoreDescendingF_trans (a b c : Nat × F32)
    (h1 : scoreDescendingF a b) (h2 : scoreDescendingF b c) : scoreDescendingF a c :=
  F32.fle_trans c.2 b.2 a.2 h2 h1

theorem scoreDescendingF_total (a b : Nat × F32) :
    scoreDescendingF a b || scoreDescendingF b a :=
  F32.fle_total b.2 a.2

theorem build_doc_lengths_getD (lg : ℚ → ℚ) (corpus : Corpus) (i : Nat)
    (hi : i < corpus.length) :
    (BM25.build lg corpus).doc_lengths.getD i 0 = (corpus.getD i []).length := by
  simp [BM25.build, List.getD_eq_getElem?_getD, List.getElem?_map,
    List.getElem?_eq_getElem hi]

theorem bm25TermContributionF_finite (idf : ℚ) (tf docLen avgLen : Nat)
    (h : avgLen ≠ 0) :
    bm25TermContributionF (3/2) (3/4) idf tf docLen avgLen =
      F32.finite (bm25TermContribution (3/2) (3/4) idf tf docLen avgLen) := by
  have havgQ : ((avgLen : ℚ)) ≠ 0 := Nat.cast_ne_zero.mpr h
  have hr : (0:ℚ) ≤ (docLen : ℚ) / (avgLen : ℚ) :=
    div_nonneg (Nat.cast_nonneg _) (Nat.cast_nonneg _)
  have htf : (0:ℚ) ≤ (tf : ℚ) := Nat.cast_nonneg _
  have hden : (tf : ℚ) + 3/2 * (1 - 3/4 + 3/4 * ((docLen : ℚ) / (avgLen : ℚ))) ≠ 0 := by
    have hpos : (0:ℚ) < (tf : ℚ) + 3/2 * (1 - 3/4 + 3/4 * ((docLen : ℚ) / (avgLen : ℚ))) := by
      nlinarith
    exact hpos.ne'
  simp [bm25TermContributionF, bm25TermContribution, F32.mul, F32.add, F32.div,
    havgQ, hden]

theorem bm25TermContributionF_tf_zero (idf : ℚ) (docLen avgLen : Nat)
    (hsafe : avgLen ≠ 0 ∨ docLen ≠ 0) :
    bm25TermContributionF (3/2) (3/4) idf 0 docLen avgLen = F32.finite 0 := by
  by_cases ha : avgLen = 0
  · have hdl : docLen ≠ 0 := by tauto
    subst ha
    have hdlQ : (0:ℚ) < (docLen : ℚ) := by exact_mod_cast Nat.pos_of_ne_zero hdl
    norm_num [bm25TermContributionF, F32.div, F32.mul, F32.add, hdlQ, hdlQ.ne']
  · rw [bm25TermContributionF_finite idf 0 docLen avgLen ha,
      bm25TermContribution_tf_zero]

theorem scoreStepF_finite (lg : ℚ → ℚ) (corpus : Corpus)
    (havg : (BM25.build lg corpus).avg_doc_length ≠ 0) (i : Nat) (acc : ℚ) (t : Token) :
    (BM25.build lg corpus).scoreStepF i (F32.finite acc) t =
      F32.finite ((BM25.build lg corpus).scoreStep i acc t) := by
  cases h : (BM25.build lg corpus).tf_cache[i]? with
  | none => simp [BM25.scoreStepF, BM25.scoreStep, h]
  | some hash =>
      have hk : (BM25.build lg corpus).k1 = 3/2 := rfl
      have hb : (BM25.build lg corpus).b = 3/4 := rfl
      simp only [BM25.scoreStepF, BM25.scoreStep, h, hk, hb]
      rw [bm25TermContributionF_finite _ _ _ _ havg]
      simp [F32.add]

theorem scoreF_foldl_finite (lg : ℚ → ℚ) (corpus : Corpus)
    (havg : (BM25.build lg corpus).avg_doc_length ≠ 0) (q : List Token) (i : Nat) :
    ∀ acc : ℚ, q.foldl ((BM25.build lg corpus).scoreStepF i) (F32.finite acc) =
      F32.finite (q.foldl ((BM25.build lg corpus).scoreStep i) acc) := by
  induction q with
  | nil => intro acc; rfl
  | cons t ts ih =>
      intro acc
      simp only [List.foldl_cons]
      rw [scoreStepF_finite lg corpus havg i acc t, ih]

theorem scoreF_finite (lg : ℚ → ℚ) (corpus : Corpus)
    (havg : (BM25.build lg corpus).avg_doc_length ≠ 0) (q : List Token) (i : Nat) :
    (BM25.build lg corpus).scoreF q i =
      F32.finite ((BM25.build lg corpus).calculate_bm25_score q i) :=
  scoreF_foldl_finite lg corpus havg q i 0

theorem scoreF_zero_of_steps (idx : BM25) (q : List Token) (i : Nat)
    (h : ∀ t ∈ q, idx.scoreStepF i (F32.finite 0) t = F32.finite 0) :
    idx.scoreF q i = F32.finite 0 := by
  induction q with
  | nil => rfl
  | cons t ts ih =>
      simp only [BM25.scoreF, List.foldl_cons] at *
      rw [h t (List.mem_cons_self t ts)]
      exact ih (fun s hs => h s (List.mem_cons_of_mem t hs))

theorem zero_tf_scoreStepF (lg : ℚ → ℚ) (corpus : Corpus) (i : Nat)
    (hi : i < corpus.length) (t : Token)
    (htf : counterOfList (corpus.getD i []) t = 0)
    (hsafe : (BM25.build lg corpus).avg_doc_length ≠ 0 ∨ corpus.getD i [] ≠ []) :
    ∀ acc : F32, (BM25.build lg corpus).scoreStepF i acc t = acc := by
  intro acc
  have hsome := build_tf_cache_getElem lg corpus i hi
  have hdl := build_doc_lengths_getD lg corpus i hi
  have hsafe2 : (BM25.build lg corpus).avg_doc_length ≠ 0 ∨
      (BM25.build lg corpus).doc_lengths.getD i 0 ≠ 0 := by
    rcases hsafe with h | h
    · exact Or.inl h
    · right
      rw [hdl]
      simpa [List.length_eq_zero] using h
  have hk : (BM25.build lg corpus).k1 = 3/2 := rfl
  have hb : (BM25.build lg corpus).b = 3/4 := rfl
  simp only [BM25.scoreStepF, hsome, hk, hb, htf]
  rw [bm25TermContributionF_tf_zero _ _ _ hsafe2]
  exact F32.add_finite_zero acc

/-- C5 counterexample: in the corpus [[a], []] the average document
length truncates to 0; for document 1 (the empty document) and the query
term a, whose term frequency there is 0, the program computes
doc_length/avg_doc_length = 0.0/0.0 = NaN inside the length
normalisation, so the term's contribution and the document's score are
NaN, not 0. -/
theorem zero_tf_zero_contribution_cex :
    (BM25.build (fun x => x) [["a"], []]).avg_doc_length = 0 ∧
    counterOfList (([["a"], []] : Corpus).getD 1 []) "a" = 0 ∧
    (BM25.build (fun x => x) [["a"], []]).scoreStepF 1 (F32.finite 0) "a" = F32.nan ∧
    (BM25.build (fun x => x) [["a"], []]).scoreF ["a"] 1 = F32.nan :=
  ⟨by decide, by decide, by decide, by decide⟩

/-- C5 (amended): a query term with term frequency 0 in a document
contributes exactly 0 to that document's score, whatever its idf,
provided the index's avg_doc_length is nonzero or the document itself is
non-empty; appending such a term to any query then leaves the document's
score unchanged.  (When avg_doc_length truncates to 0 and the document is
empty, the contribution is NaN instead, see the counterexample.) -/
theorem zero_tf_zero_contributionF (lg : ℚ → ℚ) (corpus : Corpus) (i : Nat)
    (hi : i < corpus.length) (t : Token)
    (htf : counterOfList (corpus.getD i []) t = 0) (query : List Token)
    (hsafe : (BM25.build lg corpus).avg_doc_length ≠ 0 ∨ corpus.getD i [] ≠ []) :
    (∀ idf : ℚ, bm25TermContributionF (3/2) (3/4) idf 0
        ((BM25.build lg corpus).doc_lengths.getD i 0)
        (BM25.build lg corpus).avg_doc_length = F32.finite 0) ∧
    (BM25.build lg corpus).scoreStepF i (F32.finite 0) t = F32.finite 0 ∧
    (BM25.build lg corpus).scoreF (query ++ [t]) i =
      (BM25.build lg corpus).scoreF query i := by
  have hstep := zero_tf_scoreStepF lg corpus i hi t htf hsafe
  have hdl := build_doc_lengths_getD lg corpus i hi
  have hsafe2 : (BM25.build lg corpus).avg_doc_length ≠ 0 ∨
      (BM25.build lg corpus).doc_lengths.getD i 0 ≠ 0 := by
    rcases hsafe with h | h
    · exact Or.inl h
    · right
      rw [hdl]
      simpa [List.length_eq_zero] using h
  refine ⟨fun idf => bm25TermContributionF_tf_zero idf _ _ hsafe2,
    hstep (F32.finite 0), ?_⟩
  simp only [BM25.scoreF, List.foldl_append, List.foldl_cons, List.foldl_nil]
  exact hstep _

/-- C5 witness: document 0 of a two-document corpus with avg_doc_length 1
does not contain the term b, and appending b to the query does not change
the score. -/
theorem zero_tf_zero_contributionF_witness :
    (0 < ([["a"], ["b"]] : Corpus).length ∧
      counterOfList (([["a"], ["b"]] : Corpus).getD 0 []) "b" = 0 ∧
      ((BM25.build (fun x => x) [["a"], ["b"]]).avg_doc_length ≠ 0 ∨
        ([["a"], ["b"]] : Corpus).getD 0 [] ≠ [])) ∧
    ((∀ idf : ℚ, bm25TermContributionF (3/2) (3/4) idf 0
        ((BM25.build (fun x => x) [["a"], ["b"]]).doc_lengths.getD 0 0)
        (BM25.build (fun x => x) [["a"], ["b"]]).avg_doc_length = F32.finite 0) ∧
      (BM25.build (fun x => x) [["a"], ["b"]]).scoreStepF 0 (F32.finite 0) "b" =
        F32.finite 0 ∧
      (BM25.build (fun x => x) [["a"], ["b"]]).scoreF (["a"] ++ ["b"]) 0 =
        (BM25.build (fun x => x) [["a"], ["b"]]).scoreF ["a"] 0) :=
  ⟨⟨by decide, by decide, by decide⟩,
    zero_tf_zero_contributionF (fun x => x) [["a"], ["b"]] 0 (by decide) "b"
      (by decide) ["a"] (by decide)⟩

/-- C6 counterexample: for the one-document corpus [[]] (a single empty
document, avg_doc_length = 0) and the out-of-vocabulary query [xyz123],
the program computes idf * (0.0 / NaN) = NaN, so the document's score is
NaN, not 0.0. -/
theorem oov_terms_score_zero_cex :
    (∀ d ∈ ([[]] : Corpus), "xyz123" ∉ d) ∧
    (BM25.build (fun x => x) [[]]).scoreF ["xyz123"] 0 = F32.nan :=
  ⟨by decide, by decide⟩

/-- C6 (amended): a query term occurring in no document has no term_idf
entry, so the lookup falls back to idf 0.0 rather than an error; a query
made only of such out-of-vocabulary terms scores exactly 0 on every
document index for which avg_doc_length is nonzero or the document is
non-empty.  (An empty document under avg_doc_length = 0 scores NaN
instead, see the counterexample.) -/
theorem oov_terms_score_zeroF (lg : ℚ → ℚ) (corpus : Corpus) (query : List Token)
    (hq : ∀ t ∈ query, ∀ d ∈ corpus, t ∉ d) :
    (∀ t ∈ query, (BM25.build lg corpus).term_idf t = none ∧
      ((BM25.build lg corpus).term_idf t).getD 0 = 0) ∧
    ∀ i, ((BM25.build lg corpus).avg_doc_length ≠ 0 ∨ corpus.getD i [] ≠ []) →
      (BM25.build lg corpus).scoreF query i = F32.finite 0 := by
  have hidf : ∀ t ∈ query, (BM25.build lg corpus).term_idf t = none := by
    intro t htq
    have h0 : docFreqMap corpus t = 0 :=
      (docFreqMap_eq_zero_iff corpus t).mpr (hq t htq)
    simp [BM25.build, termIdf, h0]
  refine ⟨fun t htq => ⟨hidf t htq, by rw [hidf t htq]; rfl⟩, ?_⟩
  intro i hsafe
  by_cases hi : i < corpus.length
  · refine scoreF_zero_of_steps _ query i (fun t ht => ?_)
    have hdoc : corpus.getD i [] ∈ corpus := by
      rw [List.getD_eq_getElem?_getD, List.getElem?_eq_getElem hi]
      exact List.getElem_mem hi
    have htf : counterOfList (corpus.getD i []) t = 0 := by
      rw [counterOfList_eq_count]
      exact List.count_eq_zero.mpr (hq t ht _ hdoc)
    exact zero_tf_scoreStepF lg corpus i hi t htf hsafe (F32.finite 0)
  · refine scoreF_zero_of_steps _ query i (fun t ht => ?_)
    have hnone : (BM25.build lg corpus).tf_cache[i]? = none :=
      build_tf_cache_getElem_none lg corpus i (Nat.le_of_not_lt hi)
    simp [BM25.scoreStepF, hnone]

/-- C6 witness: the query [xyz123] is out of vocabulary for a
two-document corpus whose avg_doc_length is 1, and scores exactly 0 on
both documents. -/
theorem oov_terms_score_zeroF_witness :
    (∀ t ∈ (["xyz123"] : List Token), ∀ d ∈ ([["a"], ["b", "a"]] : Corpus), t ∉ d) ∧
    ((∀ t ∈ (["xyz123"] : List Token),
        (BM25.build (fun x => x) [["a"], ["b", "a"]]).term_idf t = none ∧
        ((BM25.build (fun x => x) [["a"], ["b", "a"]]).term_idf t).getD 0 = 0) ∧
      ∀ i, ((BM25.build (fun x => x) [["a"], ["b", "a"]]).avg_doc_length ≠ 0 ∨
          ([["a"], ["b", "a"]] : Corpus).getD i [] ≠ []) →
        (BM25.build (fun x => x) [["a"], ["b", "a"]]).scoreF ["xyz123"] i =
          F32.finite 0) :=
  ⟨by decide, oov_terms_score_zeroF (fun x => x) [["a"], ["b", "a"]] ["xyz123"] (by decide)⟩

/-- C2 counterexample: for the two-document corpus [[], []] (both
documents empty, so avg_doc_length truncates to 0) and the query [a],
both document scores are NaN, the sort comparator's
partial_cmp(..).unwrap() panics, and rank_documents returns no ranking at
all instead of 2 sorted pairs. -/
theorem rank_documents_complete_cex :
    rank_documentsF (BM25.build (fun x => x) [[], []]) ["a"] =
      .error RustPanic.nanComparison := rfl

/-- C2 (amended): for every index built from a corpus whose
avg_doc_length is nonzero (in particular whenever the corpus holds at
least as many tokens as documents) and every query, rank_documents does
not panic and returns exactly one (docIndex, score) pair per document;
the indices are a permutation of 0..N-1, the pairs are in descending
score order, and every score is the finite BM25 value of its document.
(When avg_doc_length truncates to 0, a non-empty query gives every empty
document a NaN score and the sort's unwrap panics for N >= 2, see the
counterexample.) -/
theorem rank_documents_completeF (lg : ℚ → ℚ) (corpus : Corpus) (query : List Token)
    (havg : (BM25.build lg corpus).avg_doc_length ≠ 0) :
    BM25.new lg corpus = .ok (BM25.build lg corpus) ∧
    (∃ L, rank_documentsF (BM25.build lg corpus) query = .ok L) ∧
    ∀ L, rank_documentsF (BM25.build lg corpus) query = .ok L →
      L.length = corpus.length ∧
      (L.map Prod.fst).Perm (List.range corpus.length) ∧
      L.Pairwise (fun a b => F32.fle b.2 a.2) ∧
      ∀ p ∈ L, p.2 = F32.finite ((BM25.build lg corpus).calculate_bm25_score query p.1) := by
  have hne : corpus ≠ [] := by
    intro he
    apply havg
    subst he
    rfl
  have hdc : (BM25.build lg corpus).doc_count = corpus.length := rfl
  have hok : rank_documentsF (BM25.build lg corpus) query =
      .ok (((List.range corpus.length).map
        (fun i => (i, (BM25.build lg corpus).scoreF query i))).mergeSort scoreDescendingF) := by
    simp only [rank_documentsF, hdc]
    rw [if_neg]
    rintro ⟨-, hany⟩
    rw [List.any_eq_true] at hany
    obtain ⟨p, hp, hnan⟩ := hany
    rw [List.mem_map] at hp
    obtain ⟨j, -, rfl⟩ := hp
    rw [scoreF_finite lg corpus havg query j] at hnan
    simp [F32.isNan] at hnan
  refine ⟨by simp [BM25.new, List.length_eq_zero, hne], ⟨_, hok⟩, ?_⟩
  intro L hL
  rw [hok] at hL
  cases Except.ok.inj hL
  refine ⟨by simp, ?_, ?_, ?_⟩
  · have hp2 := (List.mergeSort_perm ((List.range corpus.length).map
      (fun i => (i, (BM25.build lg corpus).scoreF query i))) scoreDescendingF).map Prod.fst
    simpa [List.map_map, Function.comp_def] using hp2
  · have hs := List.sorted_mergeSort scoreDescendingF_trans scoreDescendingF_total
      ((List.range corpus.length).map
        (fun i => (i, (BM25.build lg corpus).scoreF query i)))
    exact hs.imp (fun hab => hab)
  · intro p hp
    have hp2 : p ∈ (List.range corpus.length).map
        (fun i => (i, (BM25.build lg corpus).scoreF query i)) :=
      (List.mergeSort_perm _ scoreDescendingF).mem_iff.mp hp
    rw [List.mem_map] at hp2
    obtain ⟨j, -, rfl⟩ := hp2
    exact scoreF_finite lg corpus havg query j

/-- C2 witness at a concrete two-document corpus with avg_doc_length 1. -/
theorem rank_documents_completeF_witness :
    (BM25.build (fun x => x) [["a"], ["b", "a"]]).avg_doc_length ≠ 0 ∧
    (BM25.new (fun x => x) [["a"], ["b", "a"]] =
        .ok (BM25.build (fun x => x) [["a"], ["b", "a"]]) ∧
      (∃ L, rank_documentsF (BM25.build (fun x => x) [["a"], ["b", "a"]]) ["a"] = .ok L) ∧
      ∀ L, rank_documentsF (BM25.build (fun x => x) [["a"], ["b", "a"]]) ["a"] = .ok L →
        L.length = 2 ∧
        (L.map Prod.fst).Perm (List.range 2) ∧
        L.Pairwise (fun a b => F32.fle b.2 a.2) ∧
        ∀ p ∈ L, p.2 = F32.finite
          ((BM25.build (fun x => x) [["a"], ["b", "a"]]).calculate_bm25_score ["a"] p.1)) :=
  ⟨by decide, rank_documents_completeF (fun x => x) [["a"], ["b", "a"]] ["a"] (by decide)⟩
